import Mathlib

/-!
Verification of the mittai-agent backend: a shallow embedding of the
event-store capabilities (`src/app/tools/events.py`), the weather/search
capabilities (`src/app/tools/weather.py`, `src/app/tools/search_google.py`),
the in-memory session store and the streaming orchestration loop
(`src/app/app.py`), together with theorems about their behaviour.

Conventions of the embedding:
* Python dictionaries returned across the capability boundary are modelled
  by the inductive `PyVal` (an insertion-ordered association structure,
  like a Python dict).
* `datetime.date.fromisoformat` / `datetime.time.fromisoformat` are embedded
  as `date_fromisoformat` / `time_fromisoformat`, following the C-accelerated
  parser of CPython ≥ 3.11 (the grammar rewritten in 3.11 and unchanged
  through 3.13): dates accept `YYYY-MM-DD`, compact `YYYYMMDD` and ISO week
  dates `YYYY-Www[-D]` / `YYYYWww[D]`; times accept an optional leading `T`,
  `HH[[:]MM[[:]SS]]` with consistent separators, an optional fraction after
  the last clock component (the first six digits making the microseconds),
  and an optional UTC offset (`Z` or `±HH[[:]MM[[:]SS]]` with optional
  fraction, strictly below 24 hours; a zero whole-second offset is UTC). The
  embeddings reproduce the C parser exactly, quirks included: the ignored
  trailing characters in ten-character compact date forms, the fraction
  region reachable without a decimal mark, the single boundary character
  swallowed before a time-zone marker, the NUL-terminator comparisons, and
  the offset microseconds dropped when the whole-second offset is zero.
* The SQL table `events` is modelled as a `List Event` in insertion order;
  the SQLite autoincrement primary key is `nextId`. A `Time` column stores
  the clock fields (hour, minute, second, microsecond); an offset parsed
  from an aware time string is not part of the stored row.
* Raising an exception across a boundary is modelled by the `ToolOutcome.raises`
  constructor; returning normally by `ToolOutcome.returns`.
-/

namespace MittaiAgent

/-- A Python value as it appears in the dictionaries the capabilities return.
`dict` keeps keys in insertion order, like a Python dict. -/
inductive PyVal where
  | none : PyVal
  | bool : Bool → PyVal
  | nat : Nat → PyVal
  | str : String → PyVal
  | list : List PyVal → PyVal
  | dict : List (String × PyVal) → PyVal
deriving Repr

/-- The keys of a `PyVal.dict` (empty for non-dicts). -/
def pyvalKeys : PyVal → List String
  | .dict d => d.map Prod.fst
  | _ => []

/-- A `datetime.date`: year, month, day. -/
structure PyDate where
  year : Nat
  month : Nat
  day : Nat
deriving DecidableEq, Repr

/-- A `datetime.time`'s clock fields: hour, minute, second, microsecond
(the value a `Time` column stores). -/
structure PyTime where
  hour : Nat
  minute : Nat
  second : Nat
  microsecond : Nat
deriving DecidableEq, Repr

/-- Value of an ASCII digit character, `none` on a non-digit. -/
def digitVal (c : Char) : Option Nat :=
  if c.isDigit then some (c.toNat - 48) else Option.none

/-- `parse_digits` of `_datetimemodule.c`: exactly `n` ASCII digits read into
a number, returning the rest of the characters. -/
def parseDigits (cs : List Char) (n : Nat) (acc : Nat) : Option (Nat × List Char) :=
  match n with
  | 0 => some (acc, cs)
  | Nat.succ m =>
    match cs with
    | [] => Option.none
    | c :: rest =>
      match digitVal c with
      | some d => parseDigits rest m (acc * 10 + d)
      | Option.none => Option.none

/-- The `is_leap` rule of `datetime`. -/
def isLeap (y : Nat) : Bool :=
  decide (y % 4 = 0 ∧ (y % 100 ≠ 0 ∨ y % 400 = 0))

/-- Days in a month, with the Gregorian leap-year rule (as `calendar`/`datetime`). -/
def daysInMonth (y m : Nat) : Nat :=
  if m = 2 then (if isLeap y then 29 else 28)
  else if m = 4 ∨ m = 6 ∨ m = 9 ∨ m = 11 then 30 else 31

/-- `_DAYS_BEFORE_MONTH` of `datetime` (index by month, common year). -/
def dbmTable : List Nat := [0, 0, 31, 59, 90, 120, 151, 181, 212, 243, 273, 304, 334]

/-- `_DAYS_IN_MONTH` of `datetime` (index by month, common year). -/
def dimTable : List Nat := [0, 31, 28, 31, 30, 31, 30, 31, 31, 30, 31, 30, 31]

/-- `_days_before_year`: days before January 1st of `y` (proleptic Gregorian). -/
def daysBeforeYear (y : Nat) : Nat :=
  (y - 1) * 365 + (y - 1) / 4 - (y - 1) / 100 + (y - 1) / 400

/-- `_days_before_month`. -/
def daysBeforeMonth (y m : Nat) : Nat :=
  dbmTable.getD m 0 + (if 2 < m ∧ isLeap y = true then 1 else 0)

/-- `_ymd2ord`: 0001-01-01 is ordinal 1. -/
def ymd2ord (y m d : Nat) : Nat :=
  daysBeforeYear y + daysBeforeMonth y m + d

/-- `_ord2ymd`: ordinal back to (year, month, day), by the 400-year-cycle
algorithm of `datetime`. -/
def ord2ymd (n : Nat) : Nat × Nat × Nat :=
  let n0 := n - 1
  let n400 := n0 / 146097
  let r1 := n0 % 146097
  let n100 := r1 / 36524
  let r2 := r1 % 36524
  let n4 := r2 / 1461
  let r3 := r2 % 1461
  let n1 := r3 / 365
  let r4 := r3 % 365
  let year := n400 * 400 + 1 + n100 * 100 + n4 * 4 + n1
  if n1 = 4 ∨ n100 = 4 then (year - 1, 12, 31)
  else
    let lp : Bool := decide (n1 = 3) && (decide (n4 ≠ 24) || decide (n100 = 3))
    let month := (r4 + 50) / 32
    let preceding := dbmTable.getD month 0 + (if 2 < month ∧ lp = true then 1 else 0)
    if r4 < preceding then
      let month' := month - 1
      let preceding' := preceding -
        (dimTable.getD month' 0 + (if month' = 2 ∧ lp = true then 1 else 0))
      (year, month', r4 - preceding' + 1)
    else (year, month, r4 - preceding + 1)

/-- `_isoweek1monday`: ordinal of the Monday starting ISO week 1 of `y`. -/
def isoweek1monday (y : Nat) : Int :=
  let firstday := ymd2ord y 1 1
  let firstweekday := (firstday + 6) % 7
  let w1 : Int := (firstday : Int) - (firstweekday : Int)
  if 3 < firstweekday then w1 + 7 else w1

/-- `_isoweek_to_gregorian`: ISO (year, week, day) to a calendar date; `none`
models the `ValueError`s (year out of 1–9999, invalid week — 53 only in long
years — or weekday, or a resulting date outside the supported range). -/
def isoWeekToGregorian (y w d : Nat) : Option PyDate :=
  if 1 ≤ y ∧ y ≤ 9999 then
    let long53 : Bool :=
      let fw := ymd2ord y 1 1 % 7
      decide (fw = 4) || (decide (fw = 3) && isLeap y)
    if 1 ≤ w ∧ (w ≤ 52 ∨ (w = 53 ∧ long53 = true)) then
      if 1 ≤ d ∧ d ≤ 7 then
        let ordI : Int := isoweek1monday y + ((w : Int) - 1) * 7 + ((d : Int) - 1)
        if 1 ≤ ordI ∧ ordI ≤ 3652059 then
          match ord2ymd ordI.toNat with
          | (yy, mm, dd) => some ⟨yy, mm, dd⟩
        else Option.none
      else Option.none
    else Option.none
  else Option.none

/-- A date field in range for the `date` constructor. -/
def mkValidDate (y mo d : Nat) : Option PyDate :=
  if 1 ≤ y ∧ y ≤ 9999 ∧ 1 ≤ mo ∧ mo ≤ 12 ∧ 1 ≤ d ∧ d ≤ daysInMonth y mo then
    some ⟨y, mo, d⟩
  else Option.none

/-- Strip one leading separator character when `sep` is set, as the date
parser's `if (uses_separator && *(p++) != '-')` check. -/
def sepStep (sep : Bool) (cs : List Char) : Option (List Char) :=
  if sep then
    match cs with
    | c :: rest => if c = '-' then some rest else Option.none
    | [] => Option.none
  else some cs

/-- `datetime.date.fromisoformat` of CPython ≥ 3.11: total length 7, 8 or 10;
a four-digit year; an optional dash separator used consistently; then either
`Www[D]` (an ISO week date, `D` a single digit, defaulting to 1) or `MMDD`;
characters past the parsed fields (possible only in the ten-character compact
forms) are ignored, as the C parser ignores them; `none` models the
`ValueError`. -/
def date_fromisoformat (s : String) : Option PyDate :=
  let cs := s.toList
  if cs.length = 7 ∨ cs.length = 8 ∨ cs.length = 10 then
    match parseDigits cs 4 0 with
    | Option.none => Option.none
    | some (y, r1) =>
      let sep : Bool := match r1 with
        | c :: _ => c = '-'
        | [] => false
      let r2 := if sep then r1.drop 1 else r1
      match r2 with
      | c :: r3 =>
        if c = 'W' then
          match parseDigits r3 2 0 with
          | Option.none => Option.none
          | some (w, r4) =>
            match r4 with
            | [] => isoWeekToGregorian y w 1
            | _ :: _ =>
              match sepStep sep r4 with
              | Option.none => Option.none
              | some r5 =>
                match parseDigits r5 1 0 with
                | Option.none => Option.none
                | some (d, _) => isoWeekToGregorian y w d
        else
          match parseDigits r2 2 0 with
          | Option.none => Option.none
          | some (mo, r3b) =>
            match sepStep sep r3b with
            | Option.none => Option.none
            | some r5 =>
              match parseDigits r5 2 0 with
              | Option.none => Option.none
              | some (d, _) => mkValidDate y mo d
      | [] => Option.none
  else Option.none

/-- Zero-pad a number below 100 to two digits (`%02d`). -/
def pad2 (n : Nat) : String :=
  if n < 10 then "0" ++ toString n else toString n

/-- Zero-pad a number below 10000 to four digits (`%04d`). -/
def pad4 (n : Nat) : String :=
  if n < 10 then "000" ++ toString n
  else if n < 100 then "00" ++ toString n
  else if n < 1000 then "0" ++ toString n
  else toString n

/-- Zero-pad a number below 1000000 to six digits (`%06d`). -/
def pad6 (n : Nat) : String :=
  let s := toString n
  let k := s.length
  String.join (List.replicate (6 - k) "0") ++ s

/-- Python `str(date)`: `YYYY-MM-DD`. -/
def PyDate.str (d : PyDate) : String :=
  pad4 d.year ++ "-" ++ pad2 d.month ++ "-" ++ pad2 d.day

/-- Python `str(time)` of a stored (naive) time: `HH:MM:SS`, with `.ffffff`
appended when the microsecond is non-zero. -/
def PyTime.str (t : PyTime) : String :=
  pad2 t.hour ++ ":" ++ pad2 t.minute ++ ":" ++ pad2 t.second ++
    (if t.microsecond ≠ 0 then "." ++ pad6 t.microsecond else "")

/-- Python `repr` of a string, as it appears in `ValueError` messages. -/
def pyRepr (s : String) : String := "'" ++ s ++ "'"

/-- A row of the `events` table (`src/app/models.py`, class `Event`).
`created_at` is the creation timestamp (an abstract clock value). -/
structure Event where
  id : Nat
  title : String
  description : String
  event_date : PyDate
  event_start_time : PyTime
  event_end_time : PyTime
  created_at : Nat
deriving DecidableEq, Repr

/-- The `{"status": "error", "message": ...}` dictionary shape. -/
def statusError (msg : String) : PyVal :=
  .dict [("status", .str "error"), ("message", .str msg)]

/-- `a in b` for strings (SQLAlchemy `contains` at the ORM level:
`sub` occurs contiguously inside `s`). -/
def strContains (s sub : String) : Bool :=
  decide (sub.toList <:+: s.toList)

/-- Lexicographic order on dates: the order SQL uses on a `Date` column. -/
def PyDate.leb (a b : PyDate) : Bool :=
  decide (a.year < b.year ∨ (a.year = b.year ∧
    (a.month < b.month ∨ (a.month = b.month ∧ a.day ≤ b.day))))

/-- Strict lexicographic order on dates. -/
def PyDate.ltb (a b : PyDate) : Bool :=
  decide (a.year < b.year ∨ (a.year = b.year ∧
    (a.month < b.month ∨ (a.month = b.month ∧ a.day < b.day))))

/-- Lexicographic order on stored times: the order SQL uses on a `Time`
column. -/
def PyTime.leb (a b : PyTime) : Bool :=
  decide (a.hour < b.hour ∨ (a.hour = b.hour ∧
    (a.minute < b.minute ∨ (a.minute = b.minute ∧
      (a.second < b.second ∨ (a.second = b.second ∧
        a.microsecond ≤ b.microsecond))))))

/-- The `ORDER BY event_date, event_start_time` key order of `query_events`. -/
def eventKeyLe (a b : Event) : Bool :=
  PyDate.ltb a.event_date b.event_date ||
    (decide (a.event_date = b.event_date) &&
      PyTime.leb a.event_start_time b.event_start_time)

/-- The per-event dictionary `check_event_exists` builds (lines 76–84). -/
def checkDict (e : Event) : PyVal :=
  .dict [("id", .nat e.id),
         ("title", .str e.title),
         ("start_time", .str e.event_start_time.str),
         ("end_time", .str e.event_end_time.str),
         ("description", .str e.description)]

/-- The rows with the given `event_date` (the `filter(Event.event_date == d)`
query of `check_event_exists`), in table order. -/
def eventsOn (d : PyDate) (store : List Event) : List Event :=
  store.filter (fun e => decide (e.event_date = d))

/-- `check_event_exists` (`src/app/tools/events.py`, lines 55–90). -/
def check_event_exists (event_date : String) (store : List Event) : PyVal :=
  match date_fromisoformat event_date with
  | Option.none =>
    statusError ("Invalid date format: Invalid isoformat string: " ++
      pyRepr event_date)
  | some d =>
    let events := eventsOn d store
    if events ≠ [] then
      .dict [("exists", .bool true),
             ("count", .nat events.length),
             ("events", .list (events.map checkDict))]
    else
      .dict [("exists", .bool false), ("count", .nat 0)]

/-- The per-event dictionary `query_events` builds (lines 164–171). -/
def queryDict (e : Event) : PyVal :=
  .dict [("id", .nat e.id),
         ("title", .str e.title),
         ("description", .str e.description),
         ("date", .str e.event_date.str),
         ("start_time", .str e.event_start_time.str),
         ("end_time", .str e.event_end_time.str)]

/-- The `if start_date:` guard plus `date.fromisoformat` of `query_events`:
`None` and the empty string are falsy and add no filter; a non-empty string
must parse or the `ValueError` escapes to the handler. -/
def optRange (o : Option String) : Except String (Option PyDate) :=
  match o with
  | Option.none => .ok Option.none
  | some s =>
    if s = "" then .ok Option.none
    else
      match date_fromisoformat s with
      | some d => .ok (some d)
      | Option.none => .error ("Invalid isoformat string: " ++ pyRepr s)

/-- The `if keyword:` guard: `None` and `""` are falsy and add no filter. -/
def normKw : Option String → Option String
  | Option.none => Option.none
  | some k => if k = "" then Option.none else some k

/-- The `query.filter(Event.event_date >= start_date_obj)` stage (applied
only when a start date made it past the guard). -/
def applyStart : Option PyDate → List Event → List Event
  | some a, q => q.filter (fun e => PyDate.leb a e.event_date)
  | Option.none, q => q

/-- The `query.filter(Event.event_date <= end_date_obj)` stage. -/
def applyEnd : Option PyDate → List Event → List Event
  | some b, q => q.filter (fun e => PyDate.leb e.event_date b)
  | Option.none, q => q

/-- The `query.filter(title.contains(keyword) | description.contains(keyword))`
stage. -/
def applyKeyword : Option String → List Event → List Event
  | some k, q =>
    q.filter (fun e => strContains e.title k || strContains e.description k)
  | Option.none, q => q

/-- The row set `query_events` reads: the three optional filters applied in
source order, then `ORDER BY event_date, event_start_time`. -/
def query_events_rows (sd ed : Option PyDate) (kw : Option String)
    (store : List Event) : List Event :=
  (applyKeyword kw (applyEnd ed (applyStart sd store))).mergeSort eventKeyLe

/-- `query_events` (`src/app/tools/events.py`, lines 127–178). -/
def query_events (start_date end_date keyword : Option String)
    (store : List Event) : PyVal :=
  match optRange start_date with
  | .error m => statusError ("Invalid date format: " ++ m)
  | .ok sd =>
    match optRange end_date with
    | .error m => statusError ("Invalid date format: " ++ m)
    | .ok ed =>
      let rows := query_events_rows sd ed (normKw keyword) store
      .dict [("status", .str "success"),
             ("count", .nat rows.length),
             ("events", .list (rows.map queryDict))]

/-- `delete_event` (`src/app/tools/events.py`, lines 181–206): look up the
first row with the given id; if present delete that row and confirm, else
report not-found and change nothing. -/
def delete_event (event_id : Nat) (store : List Event) : PyVal × List Event :=
  match store.find? (fun e => e.id == event_id) with
  | some e =>
    (.dict [("status", .str "success"),
            ("message", .str ("Event '" ++ e.title ++ "' (ID: " ++
              toString event_id ++ ") deleted successfully"))],
     store.eraseP (fun x => x.id == event_id))
  | Option.none =>
    (statusError ("Event with ID " ++ toString event_id ++ " not found"), store)

/-! ### The orchestration loop (`src/app/app.py`, `chat_helper`) -/

/-- One content block of an `AIMessage` (`content_blocks` items): either a
text fragment or a tool call carrying a name and its serialized arguments. -/
inductive ContentBlock where
  | text (s : String)
  | tool_call (name : String) (args : String)
deriving DecidableEq, Repr

/-- One item yielded by `agent.astream(..., stream_mode="updates")`: the last
message of the update is either an `AIMessage` with its content blocks, or
some other message kind (tool results etc.), which `chat_helper` skips. -/
inductive EngineStep where
  | ai (blocks : List ContentBlock)
  | other
deriving DecidableEq, Repr

/-- `"".join(m["text"] for m in blocks if m["type"] == "text")`. -/
def stepText : List ContentBlock → String
  | [] => ""
  | .text s :: bs => s ++ stepText bs
  | .tool_call _ _ :: bs => stepText bs

/-- `[(m["name"], m["args"]) for m in blocks if m["type"] == "tool_call"]`. -/
def stepCalls : List ContentBlock → List (String × String)
  | [] => []
  | .text _ :: bs => stepCalls bs
  | .tool_call n a :: bs => (n, a) :: stepCalls bs

/-- An event of the output stream: the payload of one `data:` SSE line,
either `{"type": "text", ...}` or `{"type": "tool_call", ...}`. -/
inductive OutputEvent where
  | text (content : String)
  | tool_call (content : List (String × String))
deriving DecidableEq, Repr

/-- The events one engine step makes `chat_helper` yield: nothing for a
non-AI update; for an AI update, its joined text when non-empty, then its
tool-call list when non-empty. -/
def stepEvents : EngineStep → List OutputEvent
  | .other => []
  | .ai blocks =>
    (if stepText blocks ≠ "" then [.text (stepText blocks)] else []) ++
      (if stepCalls blocks ≠ [] then [.tool_call (stepCalls blocks)] else [])

/-- The contribution of one step to `agent_response`
(`if text: agent_response += text`). -/
def stepResponse : EngineStep → String
  | .other => ""
  | .ai blocks => if stepText blocks ≠ "" then stepText blocks else ""

/-- The full event stream of one run, in engine-step order. -/
def chat_events (trace : List EngineStep) : List OutputEvent :=
  trace.flatMap stepEvents

/-- The accumulated `agent_response` at the end of one run. -/
def chat_response : List EngineStep → String
  | [] => ""
  | s :: rest => stepResponse s ++ chat_response rest

/-- One transcript entry: `{"role": ..., "content": ...}`. -/
structure Turn where
  role : String
  content : String
deriving DecidableEq, Repr

/-- `chat_helper` (`src/app/app.py`, lines 198–231) for one complete run whose
engine produced the given step trace: append the user turn, stream the events,
then append the assistant turn holding the accumulated response. Returns the
final transcript and the emitted event stream. -/
def chat_helper (conversation : List Turn) (message : String)
    (trace : List EngineStep) : List Turn × List OutputEvent :=
  ((conversation ++ [⟨"user", message⟩]) ++ [⟨"assistant", chat_response trace⟩],
   chat_events trace)

/-! ### The session store (`src/app/app.py`, `conversations`) -/

/-- One value of the `conversations` defaultdict: the transcript plus the
creation timestamp (an abstract clock value standing for the ISO string;
the ISO strings of a monotone clock compare exactly like the clock). -/
structure Conversation where
  messages : List Turn
  created_at : Nat
deriving DecidableEq, Repr

/-- The session store: the `conversations` dict, keys in insertion order. -/
abbrev SessionStore := List (String × Conversation)

/-- An access `conversations[cid]`: the defaultdict returns the existing
entry, or materializes a fresh empty one stamped with the access time. -/
def conversations_access (store : SessionStore) (cid : String) (now : Nat) :
    SessionStore × Conversation :=
  match store.lookup cid with
  | some c => (store, c)
  | Option.none => (store ++ [(cid, ⟨[], now⟩)], (⟨[], now⟩ : Conversation))

/-- A transcript entry as the JSON response renders it. -/
def turnDict (t : Turn) : PyVal :=
  .dict [("role", .str t.role), ("content", .str t.content)]

/-- `GET /chat/{conversation_id}` (`src/app/app.py`, lines 295–302): reading
the transcript of an id; an unknown id materializes through the defaultdict.
Returns the response body and the session store after the access. -/
def get_chat (store : SessionStore) (cid : String) (now : Nat) :
    PyVal × SessionStore :=
  let (st, c) := conversations_access store cid now
  (.dict [("status", .str "success"),
          ("conversation_id", .str cid),
          ("messages", .list (c.messages.map turnDict)),
          ("created_at", .nat c.created_at)],
   st)

/-- `conversations[cid]["created_at"]` for an existing key. -/
def createdAt (store : SessionStore) (cid : String) : Nat :=
  ((store.lookup cid).map Conversation.created_at).getD 0

/-- `GET /conversations-list` (`src/app/app.py`, lines 283–292):
`sorted(conversations.keys(), key=created_at, reverse=True)` — a stable sort
of the known ids, most recently created first. -/
def get_conversations_list (store : SessionStore) : List String :=
  (store.map Prod.fst).mergeSort
    (fun a b => decide (createdAt store b ≤ createdAt store a))

/-! ### Weather and search capabilities
(`src/app/tools/weather.py`, `src/app/tools/search_google.py`) -/

/-- What `client.get(url, params)` produced: a response with a status code
and a decoded JSON body, or an `httpx` timeout after the 10-second bound. -/
inductive HttpResult where
  | response (status : Nat) (body : PyVal)
  | timeout
deriving Repr

/-- What a capability call does at its boundary: return a value, or let an
exception escape. -/
inductive ToolOutcome where
  | returns (v : PyVal)
  | raises (exn : String)
deriving Repr

/-- `get_current_weather` (`src/app/tools/weather.py`, lines 6–27): there is
no exception handler, so an `httpx` timeout escapes; a response with a
non-200 status becomes `{"error": "API error: <status>"}`; a 200 response's
JSON body is returned as-is. -/
def get_current_weather : HttpResult → ToolOutcome
  | .timeout => .raises "httpx.TimeoutException"
  | .response status body =>
    if status ≠ 200 then
      .returns (.dict [("error", .str ("API error: " ++ toString status))])
    else .returns body

/-- `get_weather_forecast` (`src/app/tools/weather.py`, lines 30–51): same
shape as `get_current_weather`. -/
def get_weather_forecast : HttpResult → ToolOutcome
  | .timeout => .raises "httpx.TimeoutException"
  | .response status body =>
    if status ≠ 200 then
      .returns (.dict [("error", .str ("API error: " ++ toString status))])
    else .returns body

/-- `r.get(k)`: the value under `k`, or Python `None`. -/
def dictGet (d : List (String × PyVal)) (k : String) : PyVal :=
  ((d.lookup k).getD PyVal.none)

/-- One organic result projected to `{title, snippet, link}`; `none` when the
item is not a dict (in which case `.get` would raise). -/
def searchRow : PyVal → Option PyVal
  | .dict r => some (.dict [("title", dictGet r "title"),
                            ("snippet", dictGet r "snippet"),
                            ("link", dictGet r "link")])
  | _ => Option.none

/-- `google_search` (`src/app/tools/search_google.py`, lines 6–37): no
exception handler, so a timeout escapes; non-200 becomes the error dict;
on 200 the top five of `organic_results` are projected to
`{title, snippet, link}`. -/
def google_search : HttpResult → ToolOutcome
  | .timeout => .raises "httpx.TimeoutException"
  | .response status body =>
    if status ≠ 200 then
      .returns (.dict [("error", .str ("API error: " ++ toString status))])
    else
      match body with
      | .dict d =>
        match d.lookup "organic_results" with
        | some (.list l) =>
          match (l.take 5).mapM searchRow with
          | some rows => .returns (.dict [("results", .list rows)])
          | Option.none => .raises "AttributeError"
        | Option.none => .returns (.dict [("results", .list [])])
        | some _ => .raises "TypeError"
      | _ => .raises "AttributeError"

/-! ### Claim-side notions (stated from the specification's wording) -/

/-- The concatenation of the text fragments of an event stream, in emission
order — the spec's "full concatenated text" of a run. -/
def emittedText : List OutputEvent → String
  | [] => ""
  | .text s :: rest => s ++ emittedText rest
  | .tool_call _ :: rest => emittedText rest

/-- Whether an output event is a tool-call announcement. -/
def isToolCallEvent : OutputEvent → Bool
  | .tool_call _ => true
  | .text _ => false

/-- The spec's expected tool-call announcements of a run: one event per
reasoning step that requests at least one capability invocation, carrying
that step's full list of (name, arguments) pairs, in step order. -/
def toolCallEvents (trace : List EngineStep) : List OutputEvent :=
  trace.filterMap fun s =>
    match s with
    | .ai blocks =>
      if stepCalls blocks ≠ [] then some (.tool_call (stepCalls blocks))
      else Option.none
    | .other => Option.none

/-- Relates a `query_events` string argument to the date it denotes: absent,
or a string the ISO date parser accepts. -/
def DateArg : Option String → Option PyDate → Prop
  | Option.none, Option.none => True
  | some s, some d => date_fromisoformat s = some d
  | _, _ => False

/-- The claim's selection predicate for `query_events`: `event_date` at least
`start_date` (when given), at most `end_date` (when given), and the keyword a
substring of title or description (when given) — all combined with AND. -/
def claimPred (sd ed : Option PyDate) (kw : Option String) (e : Event) : Bool :=
  (match sd with
   | some a => PyDate.leb a e.event_date
   | Option.none => true) &&
  (match ed with
   | some b => PyDate.leb e.event_date b
   | Option.none => true) &&
  (match kw with
   | some k => strContains e.title k || strContains e.description k
   | Option.none => true)

theorem emittedText_append (a b : List OutputEvent) :
    emittedText (a ++ b) = emittedText a ++ emittedText b := by
  induction a with
  | nil => simp [emittedText, String.empty_append]
  | cons x xs ih => cases x <;> simp [emittedText, ih, String.append_assoc]

theorem emittedText_stepEvents (s : EngineStep) :
    emittedText (stepEvents s) = stepResponse s := by
  cases s with
  | other => rfl
  | ai blocks =>
    by_cases ht : stepText blocks = "" <;> by_cases hc : stepCalls blocks = [] <;>
      simp [stepEvents, stepResponse, ht, hc, emittedText, emittedText_append,
        String.append_empty]

theorem chat_response_eq_emittedText (trace : List EngineStep) :
    chat_response trace = emittedText (chat_events trace) := by
  induction trace with
  | nil => rfl
  | cons s rest ih =>
    simp [chat_response, chat_events, List.flatMap_cons, emittedText_append,
      emittedText_stepEvents, ih]

/-- C1: one complete run of `chat_helper` grows the transcript by exactly two
turns: first the `user` turn with the given message, then a single `assistant`
turn whose content is the concatenation of all text fragments emitted during
the run (possibly the empty string). -/
theorem chat_helper_appends_exactly_two_turns (conversation : List Turn)
    (message : String) (trace : List EngineStep) :
    (chat_helper conversation message trace).1 =
      conversation ++
        [⟨"user", message⟩, ⟨"assistant", emittedText (chat_events trace)⟩] ∧
    (chat_helper conversation message trace).1.length =
      conversation.length + 2 := by
  constructor
  · simp [chat_helper, chat_response_eq_emittedText]
  · simp [chat_helper]

/-- C3: within one run the output events appear in strict engine-step order;
every step that requests at least one capability invocation contributes
exactly one `tool_call` event carrying that step's full (name, args) list, in
step order among the other events, and the stream of a trace extension is the
stream of the prefix followed by the stream of the suffix (events are never
withheld past the step that produced them). -/
theorem chat_events_tool_calls_in_step_order (trace : List EngineStep) :
    (chat_events trace).filter isToolCallEvent = toolCallEvents trace ∧
    (∀ t u : List EngineStep,
      chat_events (t ++ u) = chat_events t ++ chat_events u) := by
  constructor
  · induction trace with
    | nil => rfl
    | cons s rest ih =>
      rw [chat_events, List.flatMap_cons, List.filter_append]
      rw [chat_events] at ih
      rw [ih]
      cases s with
      | other => simp [stepEvents, toolCallEvents, List.filterMap_cons]
      | ai blocks =>
        by_cases ht : stepText blocks = "" <;> by_cases hc : stepCalls blocks = [] <;>
          simp [stepEvents, toolCallEvents, List.filterMap_cons, ht, hc,
            isToolCallEvent, List.filter_append]
  · intro t u
    simp [chat_events, List.flatMap_append]

/-- C5: deleting an id not present in the store returns the structured
not-found error naming the id and leaves the store exactly unchanged. -/
theorem delete_event_unknown_id (store : List Event) (event_id : Nat)
    (h : ∀ e ∈ store, e.id ≠ event_id) :
    delete_event event_id store =
      (.dict [("status", .str "error"),
              ("message", .str ("Event with ID " ++ toString event_id ++
                " not found"))],
       store) := by
  have hfind : store.find? (fun e => e.id == event_id) = Option.none := by
    rw [List.find?_eq_none]
    intro x hx
    simp [h x hx]
  simp [delete_event, hfind, statusError]

/-- C5 witness: a store holding one event with id 1, queried for id 2. -/
theorem delete_event_unknown_id_witness :
    delete_event 2 [⟨1, "Standup", "", ⟨2024, 1, 15⟩, ⟨9, 0, 0, 0⟩, ⟨9, 30, 0, 0⟩, 0⟩] =
      (.dict [("status", .str "error"),
              ("message", .str "Event with ID 2 not found")],
       [⟨1, "Standup", "", ⟨2024, 1, 15⟩, ⟨9, 0, 0, 0⟩, ⟨9, 30, 0, 0⟩, 0⟩]) :=
  delete_event_unknown_id _ 2 (by decide)

/-- C10: deleting an id that is present (ids being unique, as the
autoincrement primary key guarantees) removes exactly that event — the
resulting store is the original with every event of a different id kept, in
order, with all fields unchanged — and returns a success message naming the
deleted event's title and id. -/
theorem delete_event_known_id (store : List Event) (e : Event)
    (hmem : e ∈ store) (huniq : (store.map Event.id).Nodup) :
    delete_event e.id store =
      (.dict [("status", .str "success"),
              ("message", .str ("Event '" ++ e.title ++ "' (ID: " ++
                toString e.id ++ ") deleted successfully"))],
       store.filter (fun x => decide (x.id ≠ e.id))) := by
  induction store with
  | nil => cases hmem
  | cons a rest ih =>
    rw [List.map_cons, List.nodup_cons] at huniq
    by_cases ha : a.id = e.id
    · have hae : a = e := by
        rcases List.mem_cons.mp hmem with h | h
        · exact h.symm
        · exact absurd (ha ▸ List.mem_map_of_mem Event.id h) huniq.1
      have hrest : rest.filter (fun x => decide (x.id ≠ e.id)) = rest := by
        rw [List.filter_eq_self]
        intro x hx
        have : x.id ≠ e.id := fun hx' => huniq.1 (ha ▸ hx' ▸ List.mem_map_of_mem Event.id hx)
        simp [this]
      subst hae
      rw [delete_event, List.find?_cons_of_pos _ (by simp),
        List.eraseP_cons_of_pos (by simp), List.filter_cons]
      simp only [ne_eq, decide_not] at hrest
      simp [hrest]
    · have hmem' : e ∈ rest := by
        rcases List.mem_cons.mp hmem with h | h
        · exact absurd (congrArg Event.id h.symm) ha
        · exact h
      have hrec := ih hmem' huniq.2
      rw [delete_event] at hrec ⊢
      rw [List.find?_cons_of_neg _ (by simp [ha]),
        List.eraseP_cons_of_neg (by simp [ha]), List.filter_cons]
      cases hf : rest.find? (fun x => x.id == e.id) with
      | none =>
        exact absurd (List.find?_eq_none.mp hf e hmem') (by simp)
      | some f =>
        rw [hf] at hrec
        have hrec' : (PyVal.dict [("status", PyVal.str "success"),
            ("message", PyVal.str ("Event '" ++ f.title ++ "' (ID: " ++
              toString e.id ++ ") deleted successfully"))],
            List.eraseP (fun x => x.id == e.id) rest) =
            (PyVal.dict [("status", PyVal.str "success"),
              ("message", PyVal.str ("Event '" ++ e.title ++ "' (ID: " ++
                toString e.id ++ ") deleted successfully"))],
             List.filter (fun x => decide (x.id ≠ e.id)) rest) := hrec
        rw [Prod.ext_iff] at hrec'
        show (PyVal.dict [("status", PyVal.str "success"),
            ("message", PyVal.str ("Event '" ++ f.title ++ "' (ID: " ++
              toString e.id ++ ") deleted successfully"))],
            a :: List.eraseP (fun x => x.id == e.id) rest) = _
        simp only at hrec'
        simp [hrec'.1, hrec'.2, ha]

/-- C10 witness: a two-event store; deleting the second event keeps the first
untouched. -/
theorem delete_event_known_id_witness :
    delete_event 2 [⟨1, "Standup", "", ⟨2024, 1, 15⟩, ⟨9, 0, 0, 0⟩, ⟨9, 30, 0, 0⟩, 0⟩,
                    ⟨2, "Review", "weekly", ⟨2024, 1, 16⟩, ⟨14, 0, 0, 0⟩, ⟨15, 0, 0, 0⟩, 1⟩] =
      (.dict [("status", .str "success"),
              ("message", .str "Event 'Review' (ID: 2) deleted successfully")],
       [⟨1, "Standup", "", ⟨2024, 1, 15⟩, ⟨9, 0, 0, 0⟩, ⟨9, 30, 0, 0⟩, 0⟩]) := by
  have := delete_event_known_id
    [⟨1, "Standup", "", ⟨2024, 1, 15⟩, ⟨9, 0, 0, 0⟩, ⟨9, 30, 0, 0⟩, 0⟩,
     ⟨2, "Review", "weekly", ⟨2024, 1, 16⟩, ⟨14, 0, 0, 0⟩, ⟨15, 0, 0, 0⟩, 1⟩]
    ⟨2, "Review", "weekly", ⟨2024, 1, 16⟩, ⟨14, 0, 0, 0⟩, ⟨15, 0, 0, 0⟩, 1⟩
    (by decide) (by decide)
  simpa using this

theorem lookup_append_of_missing {store : SessionStore} {cid : String}
    (h : store.lookup cid = Option.none) (c : Conversation) :
    (store ++ [(cid, c)]).lookup cid = some c := by
  induction store with
  | nil => simp [List.lookup]
  | cons a rest ih =>
    obtain ⟨k, v⟩ := a
    rw [List.cons_append, List.lookup_cons] at *
    cases hb : (cid == k) with
    | true => rw [hb] at h; cases h
    | false => rw [hb] at h; exact ih h

/-- C8: accessing the transcript of a never-seen conversation id never fails:
it returns an empty message sequence with a creation timestamp set at that
first access, materializes exactly one fresh store entry, and a subsequent
access to the same id observes that same single entry (same store, same
timestamp), not a duplicate. -/
theorem get_chat_unknown_id (store : SessionStore) (cid : String)
    (now now2 : Nat) (h : store.lookup cid = Option.none) :
    (get_chat store cid now).1 =
      .dict [("status", .str "success"),
             ("conversation_id", .str cid),
             ("messages", .list []),
             ("created_at", .nat now)] ∧
    (get_chat store cid now).2 = store ++ [(cid, ⟨[], now⟩)] ∧
    get_chat (get_chat store cid now).2 cid now2 =
      ((get_chat store cid now).1, (get_chat store cid now).2) := by
  have h1 : get_chat store cid now =
      (.dict [("status", .str "success"),
              ("conversation_id", .str cid),
              ("messages", .list []),
              ("created_at", .nat now)],
       store ++ [(cid, ⟨[], now⟩)]) := by
    simp [get_chat, conversations_access, h]
  refine ⟨by rw [h1], by rw [h1], ?_⟩
  rw [h1]
  simp [get_chat, conversations_access, lookup_append_of_missing h]

/-- C8 witness: id `"b"` unseen in a store holding only `"a"`. -/
theorem get_chat_unknown_id_witness :
    (get_chat [("a", ⟨[⟨"user", "hi"⟩], 5⟩)] "b" 7).1 =
      .dict [("status", .str "success"),
             ("conversation_id", .str "b"),
             ("messages", .list []),
             ("created_at", .nat 7)] ∧
    (get_chat [("a", ⟨[⟨"user", "hi"⟩], 5⟩)] "b" 7).2 =
      [("a", ⟨[⟨"user", "hi"⟩], 5⟩), ("b", ⟨[], 7⟩)] ∧
    get_chat (get_chat [("a", ⟨[⟨"user", "hi"⟩], 5⟩)] "b" 7).2 "b" 9 =
      ((get_chat [("a", ⟨[⟨"user", "hi"⟩], 5⟩)] "b" 7).1,
       (get_chat [("a", ⟨[⟨"user", "hi"⟩], 5⟩)] "b" 7).2) :=
  get_chat_unknown_id [("a", ⟨[⟨"user", "hi"⟩], 5⟩)] "b" 7 9 (by decide)

/-- C9: listing conversation ids returns all known ids, ordered by creation
timestamp descending (most recently created first). -/
theorem get_conversations_list_most_recent_first (store : SessionStore) :
    (get_conversations_list store).Perm (store.map Prod.fst) ∧
    (get_conversations_list store).Pairwise
      (fun a b => createdAt store b ≤ createdAt store a) := by
  constructor
  · exact List.mergeSort_perm _ _
  · have := @List.sorted_mergeSort String
      (fun a b => decide (createdAt store b ≤ createdAt store a))
      (fun a b c h1 h2 => by
        simp only [decide_eq_true_eq] at h1 h2 ⊢
        exact le_trans h2 h1)
      (fun a b => by
        simp only [Bool.or_eq_true, decide_eq_true_eq]
        exact Nat.le_total (createdAt store b) (createdAt store a))
      (store.map Prod.fst)
    exact this.imp (by simp)

/-- C6 counterexample: on a valid date with no matching events the result of
`check_event_exists` carries no `events` key at all — only `exists` and
`count` — so the claim's "events key is present for every valid date" fails. -/
theorem check_event_exists_empty_has_no_events_key :
    date_fromisoformat "2024-01-15" = some ⟨2024, 1, 15⟩ ∧
    check_event_exists "2024-01-15" [] =
      .dict [("exists", .bool false), ("count", .nat 0)] ∧
    pyvalKeys (check_event_exists "2024-01-15" []) = ["exists", "count"] :=
  ⟨rfl, rfl, rfl⟩

/-- C6 (amended): for every valid ISO date, `check_event_exists` returns
`exists` true with `count` and the `events` list exactly when at least one
stored event has that `event_date`; with zero matches it returns only
`{exists: false, count: 0}` (no `events` key). -/
theorem check_event_exists_spec (s : String) (d : PyDate) (store : List Event)
    (h : date_fromisoformat s = some d) :
    (eventsOn d store = [] →
      check_event_exists s store =
        .dict [("exists", .bool false), ("count", .nat 0)]) ∧
    (eventsOn d store ≠ [] →
      check_event_exists s store =
        .dict [("exists", .bool true),
               ("count", .nat (eventsOn d store).length),
               ("events", .list ((eventsOn d store).map checkDict))]) ∧
    (∀ e : Event, e ∈ eventsOn d store ↔ e ∈ store ∧ e.event_date = d) := by
  refine ⟨fun he => ?_, fun he => ?_, fun e => ?_⟩
  · simp [check_event_exists, h, he]
  · simp [check_event_exists, h, he]
  · simp [eventsOn, List.mem_filter]

/-- C6 witness: one stored event on the queried date. -/
theorem check_event_exists_spec_witness :
    check_event_exists "2024-01-15"
        [⟨1, "Standup", "", ⟨2024, 1, 15⟩, ⟨9, 0, 0, 0⟩, ⟨9, 30, 0, 0⟩, 0⟩] =
      .dict [("exists", .bool true),
             ("count", .nat 1),
             ("events", .list [checkDict
               ⟨1, "Standup", "", ⟨2024, 1, 15⟩, ⟨9, 0, 0, 0⟩, ⟨9, 30, 0, 0⟩, 0⟩])] :=
  ((check_event_exists_spec "2024-01-15" ⟨2024, 1, 15⟩
      [⟨1, "Standup", "", ⟨2024, 1, 15⟩, ⟨9, 0, 0, 0⟩, ⟨9, 30, 0, 0⟩, 0⟩]
      rfl).2.1 (by decide))

/-- C7 counterexample: a provider timeout is not converted into a structured
error value — all three capabilities let the `httpx` timeout exception escape
across the capability boundary. -/
theorem weather_search_timeout_raises :
    get_current_weather .timeout = .raises "httpx.TimeoutException" ∧
    get_weather_forecast .timeout = .raises "httpx.TimeoutException" ∧
    google_search .timeout = .raises "httpx.TimeoutException" :=
  ⟨rfl, rfl, rfl⟩

/-- C7 (amended): for every non-2xx provider response, `get_current_weather`,
`get_weather_forecast` and `google_search` return the structured mapping
`{"error": "API error: <status>"}` without raising; a provider timeout,
however, propagates as an exception instead of being converted. -/
theorem weather_search_non_2xx_structured (status : Nat) (body : PyVal)
    (h : ¬(200 ≤ status ∧ status < 300)) :
    get_current_weather (.response status body) =
      .returns (.dict [("error", .str ("API error: " ++ toString status))]) ∧
    get_weather_forecast (.response status body) =
      .returns (.dict [("error", .str ("API error: " ++ toString status))]) ∧
    google_search (.response status body) =
      .returns (.dict [("error", .str ("API error: " ++ toString status))]) := by
  have hne : status ≠ 200 := by omega
  exact ⟨by simp [get_current_weather, hne],
         by simp [get_weather_forecast, hne],
         by simp [google_search, hne]⟩

/-- C7 witness: a simulated HTTP 500 from the provider. -/
theorem weather_search_non_2xx_structured_witness :
    get_current_weather (.response 500 PyVal.none) =
      .returns (.dict [("error", .str "API error: 500")]) ∧
    get_weather_forecast (.response 500 PyVal.none) =
      .returns (.dict [("error", .str "API error: 500")]) ∧
    google_search (.response 500 PyVal.none) =
      .returns (.dict [("error", .str "API error: 500")]) :=
  weather_search_non_2xx_structured 500 PyVal.none (by omega)

theorem optRange_of_dateArg {o : Option String} {od : Option PyDate}
    (h : DateArg o od) : optRange o = .ok od := by
  match o, od, h with
  | Option.none, Option.none, _ => rfl
  | some s, some d, h =>
    have hne : s ≠ "" := by
      intro he
      rw [he] at h
      exact Option.noConfusion h
    have h' : date_fromisoformat s = some d := h
    simp [optRange, hne, h']

theorem strContains_empty (s : String) : strContains s "" = true := by
  simp only [strContains, decide_eq_true_eq]
  exact ⟨[], s.toList, by simp⟩

theorem eventKeyLe_trans (a b c : Event) (h1 : eventKeyLe a b = true)
    (h2 : eventKeyLe b c = true) : eventKeyLe a c = true := by
  obtain ⟨_, _, _, ⟨ay, am, ad⟩, ⟨ah, amin, asec, aus⟩, _, _⟩ := a
  obtain ⟨_, _, _, ⟨by', bm, bd⟩, ⟨bh, bmin, bsec, bus⟩, _, _⟩ := b
  obtain ⟨_, _, _, ⟨cy, cm, cd⟩, ⟨ch, cmin, csec, cus⟩, _, _⟩ := c
  simp only [eventKeyLe, PyDate.ltb, PyTime.leb, PyDate.mk.injEq,
    Bool.or_eq_true, Bool.and_eq_true, decide_eq_true_eq] at h1 h2 ⊢
  omega

theorem eventKeyLe_total (a b : Event) :
    (eventKeyLe a b || eventKeyLe b a) = true := by
  obtain ⟨_, _, _, ⟨ay, am, ad⟩, ⟨ah, amin, asec, aus⟩, _, _⟩ := a
  obtain ⟨_, _, _, ⟨by', bm, bd⟩, ⟨bh, bmin, bsec, bus⟩, _, _⟩ := b
  simp only [eventKeyLe, PyDate.ltb, PyTime.leb, PyDate.mk.injEq,
    Bool.or_eq_true, Bool.and_eq_true, decide_eq_true_eq]
  omega

theorem filters_eq_claimPred (sd ed : Option PyDate) (keyword : Option String)
    (store : List Event) :
    applyKeyword (normKw keyword) (applyEnd ed (applyStart sd store)) =
      store.filter (claimPred sd ed keyword) := by
  have h1 : applyStart sd store = store.filter (fun e =>
      match sd with
      | some a => PyDate.leb a e.event_date
      | Option.none => true) := by
    cases sd <;> simp [applyStart]
  have h2 : ∀ q : List Event, applyEnd ed q = q.filter (fun e =>
      match ed with
      | some b => PyDate.leb e.event_date b
      | Option.none => true) := by
    intro q
    cases ed <;> simp [applyEnd]
  have h3 : ∀ q : List Event, applyKeyword (normKw keyword) q = q.filter (fun e =>
      match keyword with
      | some k => strContains e.title k || strContains e.description k
      | Option.none => true) := by
    intro q
    match keyword with
    | Option.none => simp [normKw, applyKeyword]
    | some k =>
      by_cases hk : k = ""
      · subst hk
        simp [normKw, applyKeyword, strContains_empty]
      · simp [normKw, applyKeyword, hk]
  rw [h1, h2, h3, List.filter_filter, List.filter_filter]
  refine List.filter_congr ?_
  intro e _
  simp only [claimPred]
  rcases sd with _ | a <;> rcases ed with _ | b <;> rcases keyword with _ | k <;>
    simp [Bool.and_comm, Bool.and_assoc, Bool.and_left_comm]

/-- C2: for every store state and every combination of the optional arguments
(each date argument absent or a valid ISO date string), `query_events`
reports success and returns exactly the events passing the claim's predicate
— `event_date` at least the start date and at most the end date (inclusive at
both ends, each bound only when given) and the keyword a substring of title
or description (when given), all present filters combined with AND — ordered
ascending by `(event_date, event_start_time)`. -/
theorem query_events_range_keyword_sorted (store : List Event)
    (start_date end_date keyword : Option String) (sd ed : Option PyDate)
    (hs : DateArg start_date sd) (he : DateArg end_date ed) :
    query_events start_date end_date keyword store =
      .dict [("status", .str "success"),
             ("count", .nat (query_events_rows sd ed (normKw keyword) store).length),
             ("events", .list ((query_events_rows sd ed (normKw keyword) store).map
               queryDict))] ∧
    (query_events_rows sd ed (normKw keyword) store).Perm
      (store.filter (claimPred sd ed keyword)) ∧
    (query_events_rows sd ed (normKw keyword) store).Pairwise
      (fun a b => eventKeyLe a b = true) := by
  refine ⟨?_, ?_, ?_⟩
  · simp [query_events, optRange_of_dateArg hs, optRange_of_dateArg he]
  · rw [query_events_rows]
    refine (List.mergeSort_perm _ _).trans ?_
    rw [filters_eq_claimPred]
  · rw [query_events_rows]
    exact List.sorted_mergeSort eventKeyLe_trans eventKeyLe_total _

/-- C2 witness: a three-event store queried with the range
`2024-01-15 .. 2024-01-20` and no keyword. -/
theorem query_events_range_keyword_sorted_witness :
    (query_events_rows (some ⟨2024, 1, 15⟩) (some ⟨2024, 1, 20⟩) Option.none
        [⟨1, "Review", "weekly", ⟨2024, 2, 1⟩, ⟨14, 0, 0, 0⟩, ⟨15, 0, 0, 0⟩, 0⟩,
         ⟨2, "Standup", "", ⟨2024, 1, 16⟩, ⟨9, 0, 0, 0⟩, ⟨9, 30, 0, 0⟩, 0⟩,
         ⟨3, "Planning", "", ⟨2024, 1, 16⟩, ⟨8, 0, 0, 0⟩, ⟨8, 30, 0, 0⟩, 0⟩]).Perm
      (List.filter
        (claimPred (some ⟨2024, 1, 15⟩) (some ⟨2024, 1, 20⟩) Option.none)
        [⟨1, "Review", "weekly", ⟨2024, 2, 1⟩, ⟨14, 0, 0, 0⟩, ⟨15, 0, 0, 0⟩, 0⟩,
         ⟨2, "Standup", "", ⟨2024, 1, 16⟩, ⟨9, 0, 0, 0⟩, ⟨9, 30, 0, 0⟩, 0⟩,
         ⟨3, "Planning", "", ⟨2024, 1, 16⟩, ⟨8, 0, 0, 0⟩, ⟨8, 30, 0, 0⟩, 0⟩]) :=
  (query_events_range_keyword_sorted
    [⟨1, "Review", "weekly", ⟨2024, 2, 1⟩, ⟨14, 0, 0, 0⟩, ⟨15, 0, 0, 0⟩, 0⟩,
     ⟨2, "Standup", "", ⟨2024, 1, 16⟩, ⟨9, 0, 0, 0⟩, ⟨9, 30, 0, 0⟩, 0⟩,
     ⟨3, "Planning", "", ⟨2024, 1, 16⟩, ⟨8, 0, 0, 0⟩, ⟨8, 30, 0, 0⟩, 0⟩]
    (some "2024-01-15") (some "2024-01-20") Option.none
    (some ⟨2024, 1, 15⟩) (some ⟨2024, 1, 20⟩)
    (by show date_fromisoformat "2024-01-15" = some ⟨2024, 1, 15⟩; decide)
    (by show date_fromisoformat "2024-01-20" = some ⟨2024, 1, 20⟩; decide)).2.1

end MittaiAgent
